import Mathlib

/-!
Verification development for the PMOVES service-discovery and health layer.

The Python sources are shallowly embedded:
* `pmoves_announcer/__init__.py` — `ServiceAnnouncement` (wire model with
  `to_json` / `from_json`) and `ServiceAnnouncer.announce_with_retry`;
* `pmoves_registry/__init__.py` — `ServiceInfo.base_url`, `_get_env_url`,
  `_fallback_dns_url`, `get_service_info`;
* `pmoves_health/__init__.py` — `DependencyCheck.status_key` and
  `HealthChecker.check_all`.

I/O effects are made explicit: the process environment becomes an injected
mapping `String → Option String` (`os.getenv`), a probe's behaviour in one
run becomes an `Outcome` (`ok b` for a normal return coerced to bool, `exn`
for a raised exception), and the NATS transport behind `announce` becomes a
function from the 0-based attempt index to a success boolean.  JSON is
modelled as a value tree; Python's `json.dumps`/`json.loads` pair is the
identity on such trees.  String operations are modelled character-wise
(ASCII, which covers every string the repository uses).
-/

/-- JSON value trees (the image of `json.loads`).  Numbers are restricted to
integers, which covers every numeric field the wire format uses (`port`). -/
inductive Json where
  | null : Json
  | bool (b : Bool) : Json
  | num (n : Int) : Json
  | str (s : String) : Json
  | arr (elems : List Json) : Json
  | obj (fields : List (String × Json)) : Json

/-- `d[k]` / `d.get(k)` on a JSON object, first binding of the key wins
(Python dicts hold each key once, so this is exact). -/
def jlookup (d : List (String × Json)) (k : String) : Option Json :=
  (d.find? (fun p => p.1 == k)).map (fun p => p.2)

/-- Coerce a JSON value to a string, as Python code reading `data["slug"]`
into a string field does. -/
def Json.asStr : Json → Option String
  | .str s => some s
  | _ => none

/-- Coerce a JSON value to an integer. -/
def Json.asInt : Json → Option Int
  | .num n => some n
  | _ => none

/-- Coerce a JSON value to an object (field list). -/
def Json.asObj : Json → Option (List (String × Json))
  | .obj d => some d
  | _ => none

/-- `ServiceTier` from `pmoves_announcer`/`pmoves_registry` (the identical
8-value `str` enum defined in both modules). -/
inductive ServiceTier where
  | data | api | llm | media | agent | worker | app | ui
deriving DecidableEq

/-- The `.value` of a tier member (the string payload of the `str` enum). -/
def ServiceTier.value : ServiceTier → String
  | .data => "data"
  | .api => "api"
  | .llm => "llm"
  | .media => "media"
  | .agent => "agent"
  | .worker => "worker"
  | .app => "app"
  | .ui => "ui"

/-- `ServiceTier(s)`: the enum constructor lookup by value; `none` models the
`ValueError` Python raises for an unknown tier string. -/
def ServiceTier.ofValue (s : String) : Option ServiceTier :=
  if s = "data" then some .data
  else if s = "api" then some .api
  else if s = "llm" then some .llm
  else if s = "media" then some .media
  else if s = "agent" then some .agent
  else if s = "worker" then some .worker
  else if s = "app" then some .app
  else if s = "ui" then some .ui
  else none

/-- `ServiceAnnouncement` (pmoves_announcer): the wire-relevant dataclass
fields.  `SUBJECT` is the class-level constant `services.announce.v1`, kept
below as a separate constant since it never travels on the wire. -/
structure ServiceAnnouncement where
  slug : String
  name : String
  url : String
  health_check : String
  tier : ServiceTier
  port : Int
  timestamp : String
  metadata : List (String × Json)

/-- The fixed NATS subject for announcements. -/
def ServiceAnnouncement.SUBJECT : String := "services.announce.v1"

/-- `ServiceAnnouncement.to_json`: the JSON object `json.dumps` receives
(keys and order as written in the source). -/
def ServiceAnnouncement.to_json (a : ServiceAnnouncement) : Json :=
  Json.obj
    [ ("slug", Json.str a.slug)
    , ("name", Json.str a.name)
    , ("url", Json.str a.url)
    , ("health_check", Json.str a.health_check)
    , ("tier", Json.str a.tier.value)
    , ("port", Json.num a.port)
    , ("timestamp", Json.str a.timestamp)
    , ("metadata", Json.obj a.metadata)
    ]

/-- `ServiceAnnouncement.from_json` on an already-parsed JSON value (the
dict branch of the Python classmethod; the str branch first applies
`json.loads`).  `none` models the `KeyError` for a missing required field,
a type mismatch, and the `ValueError` of `ServiceTier(data["tier"])`.
`now` stands for `datetime.utcnow().isoformat()`, the default used when the
optional `timestamp` key is absent; absent `metadata` defaults to `{}`. -/
def ServiceAnnouncement.from_json (now : String) (j : Json) : Option ServiceAnnouncement :=
  match j with
  | Json.obj d => do
      let slug ← (jlookup d "slug").bind Json.asStr
      let name ← (jlookup d "name").bind Json.asStr
      let url ← (jlookup d "url").bind Json.asStr
      let health_check ← (jlookup d "health_check").bind Json.asStr
      let tierStr ← (jlookup d "tier").bind Json.asStr
      let tier ← ServiceTier.ofValue tierStr
      let port ← (jlookup d "port").bind Json.asInt
      let timestamp := ((jlookup d "timestamp").bind Json.asStr).getD now
      let metadata := ((jlookup d "metadata").bind Json.asObj).getD []
      pure ⟨slug, name, url, health_check, tier, port, timestamp, metadata⟩
  | _ => none

/-- Observable result of one `announce_with_retry` run: the returned
boolean, how many times `announce` was called, and the list of backoff
delays slept between consecutive attempts (in seconds, in order). -/
structure RetryResult where
  success : Bool
  calls : Nat
  sleeps : List ℚ
deriving DecidableEq

/-- Recursive form of the loop
`for attempt in range(max_retries): if await self.announce(): return True;
 if attempt < max_retries - 1: await asyncio.sleep(delay * (2**attempt))`.
`attempt` is the current 0-based index and the `Nat` argument is the number
of remaining iterations `max_retries - attempt`; `remaining = 1` is the last
iteration, where `attempt < max_retries - 1` fails and no sleep happens.
`announce` is abstracted by `o : Nat → Bool`, the transport's success value
at each attempt index. -/
def retryAux (o : Nat → Bool) (delay : ℚ) (attempt : Nat) : Nat → RetryResult
  | 0 => ⟨false, 0, []⟩
  | 1 => if o attempt then ⟨true, 1, []⟩ else ⟨false, 1, []⟩
  | (n + 2) =>
      if o attempt then ⟨true, 1, []⟩
      else
        let r := retryAux o delay (attempt + 1) (n + 1)
        ⟨r.success, r.calls + 1, delay * 2 ^ attempt :: r.sleeps⟩

/-- `ServiceAnnouncer.announce_with_retry(max_retries, delay)` with the
transport outcomes injected. -/
def announce_with_retry (o : Nat → Bool) (max_retries : Nat) (delay : ℚ) : RetryResult :=
  retryAux o delay 0 max_retries

/-- The suffix loop body of `ServiceInfo.base_url`, with the four-iteration
`for suffix in (...): if url.endswith(suffix): url = url[: -len(suffix)]; break`
unrolled (`url[:-n]` keeps all but the last `n` characters). -/
def stripProbe (url : List Char) : List Char :=
  if "/healthz".data.isSuffixOf url then url.take (url.length - 8)
  else if "/health".data.isSuffixOf url then url.take (url.length - 7)
  else if "/metrics".data.isSuffixOf url then url.take (url.length - 8)
  else if "/ping".data.isSuffixOf url then url.take (url.length - 5)
  else url

/-- Python `url.rstrip("/")`: remove every trailing `/` character. -/
def rstripSlash (url : List Char) : List Char :=
  (url.reverse.dropWhile (fun c => c == '/')).reverse

/-- The body of the `ServiceInfo.base_url` property as a function of
`health_check_url`: strip one probe suffix, then `rstrip("/")`. -/
def base_url_of (health_check_url : String) : String :=
  (rstripSlash (stripProbe health_check_url.data)).asString

/-- `ServiceInfo` (pmoves_registry): immutable service metadata. -/
structure ServiceInfo where
  slug : String
  name : String
  description : String
  health_check_url : String
  default_port : Option Nat
  tier : ServiceTier
  metadata : List (String × Json)

/-- The `base_url` property of `ServiceInfo`. -/
def ServiceInfo.base_url (info : ServiceInfo) : String :=
  base_url_of info.health_check_url

/-- `slug.upper()` (ASCII). -/
def pyUpper (s : String) : String :=
  (s.data.map Char.toUpper).asString

/-- `s.replace("-", "_")` — the pattern is a single character, so this is a
character-wise map. -/
def replaceDashUnderscore (s : String) : String :=
  (s.data.map (fun c => if c == '-' then '_' else c)).asString

/-- `s.replace("-", "")` — deletion of every dash. -/
def removeDash (s : String) : String :=
  (s.data.filter (fun c => !(c == '-'))).asString

/-- The `env_var_patterns` list of `_get_env_url`, in source order:
`slug.upper().replace("-", "_") + "_URL"`, then
`slug.upper().replace("-", "") + "_URL"`, then `slug.upper() + "_URL"`. -/
def env_var_patterns (slug : String) : List String :=
  [ replaceDashUnderscore (pyUpper slug) ++ "_URL"
  , removeDash (pyUpper slug) ++ "_URL"
  , pyUpper slug ++ "_URL"
  ]

/-- The loop of `_get_env_url`:
`for pattern in env_var_patterns: if url := os.getenv(pattern): return url`.
`env` is the injected `os.getenv`; the walrus test is Python truthiness, so
both an unset variable and an empty value fall through to the next pattern. -/
def env_url_loop (env : String → Option String) : List String → Option String
  | [] => none
  | p :: ps =>
      match env p with
      | some url => if url = "" then env_url_loop env ps else some url
      | none => env_url_loop env ps

/-- `_get_env_url(slug)` (pmoves_registry). -/
def _get_env_url (env : String → Option String) (slug : String) : Option String :=
  env_url_loop env (env_var_patterns slug)

/-- `_fallback_dns_url(slug, default_port)`: the f-string
`http://{slug}:{default_port}` without braces, by concatenation. -/
def _fallback_dns_url (slug : String) (default_port : Nat) : String :=
  "http://" ++ slug ++ ":" ++ toString default_port

/-- `get_service_info(slug, default_port=...)` (pmoves_registry): the whole
resolver.  The source tries the environment override and otherwise goes
directly to the DNS fallback — these two `return` sites are its only
branches. -/
def get_service_info (env : String → Option String) (slug : String)
    (default_port : Nat) : ServiceInfo :=
  match _get_env_url env slug with
  | some env_url =>
      { slug := slug
      , name := slug ++ " (from env)"
      , description := "Service URL from environment variable"
      , health_check_url := env_url
      , default_port := some default_port
      , tier := ServiceTier.api
      , metadata := [] }
  | none =>
      { slug := slug
      , name := slug ++ " (fallback)"
      , description := "Service resolved via Docker DNS fallback"
      , health_check_url := _fallback_dns_url slug default_port
      , default_port := some default_port
      , tier := ServiceTier.api
      , metadata := [] }

/-- Result of awaiting one probe in one `check_all` run: a normal return
already coerced to bool (`ok b`), or a raised exception (`exn`). -/
inductive Outcome where
  | ok (b : Bool) : Outcome
  | exn : Outcome
deriving DecidableEq

/-- The boolean `check_all` derives from a probe outcome: the returned value
for a normal return, `false` for the `except` branch. -/
def outcomeBool : Outcome → Bool
  | .ok b => b
  | .exn => false

/-- A `DependencyCheck` as registered on a `HealthChecker`, together with
its probe's behaviour in the run under consideration.  `name` and
`required` are the constructor fields; the probe closure (database connect
function, HTTP URL, NATS URL, ...) only influences `check_all` through its
outcome, which is what `outcome` records. -/
structure RegisteredCheck where
  name : String
  required : Bool
  outcome : Outcome
deriving DecidableEq

/-- `DependencyCheck.status_key`:
`f"{self.name.lower().replace(' ', '_')}_connected"` — character-wise ASCII
lower-casing then space-to-underscore. -/
def status_key (name : String) : String :=
  (name.data.map (fun c => if c == ' ' then '_' else c.toLower)).asString ++ "_connected"

/-- `HealthChecker.http(url, name="service")` registers
`HTTPCheck(url, name=name)`, whose `required` defaults to `True`.  The URL
does not influence `check_all` beyond the probe outcome. -/
def httpCheck (outcome : Outcome) (name : String := "service") : RegisteredCheck :=
  ⟨name, true, outcome⟩

/-- `HealthStatus` constants. -/
inductive HealthStatus where
  | healthy | degraded | unhealthy
deriving DecidableEq

/-- Python dict assignment `results[key] = v`: replace in place if the key
exists (keeping its position in iteration order), else append. -/
def insertResult (entries : List (String × Bool)) (k : String) (v : Bool) :
    List (String × Bool) :=
  if entries.any (fun p => p.1 == k) then
    entries.map (fun p => if p.1 == k then (k, v) else p)
  else entries ++ [(k, v)]

/-- Loop state of `check_all`: the boolean entries of `results` plus the
`all_healthy` / `some_degraded` flags. -/
structure AggState where
  entries : List (String × Bool)
  allHealthy : Bool
  someDegraded : Bool

/-- One iteration of the `for check in self.checks` loop.  The `try` body
stores `await check.check()` and updates the flags; the `except` branch
stores `False` and updates the flags the same way, so both branches are the
flag update applied to `outcomeBool check.outcome`. -/
def stepDep (s : AggState) (c : RegisteredCheck) : AggState :=
  let is_healthy := outcomeBool c.outcome
  let entries := insertResult s.entries (status_key c.name) is_healthy
  if !is_healthy then
    if c.required then ⟨entries, false, s.someDegraded⟩
    else ⟨entries, s.allHealthy, true⟩
  else ⟨entries, s.allHealthy, s.someDegraded⟩

/-- One iteration of the `for name, check_fn in self.custom_checks.items()`
loop: store `bool(result)` (or `False` on exception) under the raw name and
clear `all_healthy` exactly when the outcome is falsy — there is no
required/optional branch on this path. -/
def stepCustom (s : AggState) (nc : String × Outcome) : AggState :=
  let result := outcomeBool nc.2
  let entries := insertResult s.entries nc.1 result
  if !result then ⟨entries, false, s.someDegraded⟩
  else ⟨entries, s.allHealthy, s.someDegraded⟩

/-- The report `check_all` returns.  The Python dict also carries the
string-valued `status`, `service` and `timestamp` keys; `status` is the
`status` field here and the other two do not interact with the checks. -/
structure Report where
  status : HealthStatus
  entries : List (String × Bool)

/-- `HealthChecker.check_all`: run the dependency checks in registration
order, then the custom checks in registration order, then derive the status
from the flags (`unhealthy` beats `degraded` beats `healthy`).  `checks`
and `customs` carry each registered check together with its probe outcome
for this run. -/
def check_all (checks : List RegisteredCheck) (customs : List (String × Outcome)) :
    Report :=
  let s0 : AggState := ⟨[], true, false⟩
  let s1 := checks.foldl stepDep s0
  let s2 := customs.foldl stepCustom s1
  { status :=
      if !s2.allHealthy then HealthStatus.unhealthy
      else if s2.someDegraded then HealthStatus.degraded
      else HealthStatus.healthy
  , entries := s2.entries }

/-- `results.get(k)` on the boolean part of the final report: the value
bound to the first (and in a dict only) occurrence of the key. -/
def lookupEntry : List (String × Bool) → String → Option Bool
  | [], _ => none
  | p :: e, k => if p.1 = k then some p.2 else lookupEntry e k

/-- All status keys of a registration, dependency checks first then custom
checks, in run order. -/
def statusKeys (checks : List RegisteredCheck) (customs : List (String × Outcome)) :
    List String :=
  checks.map (fun c => status_key c.name) ++ customs.map (fun nc => nc.1)

/-- The booleans written under key `k` during one `check_all` run, in write
order (dependency checks first, then custom checks). -/
def writesFor (checks : List RegisteredCheck) (customs : List (String × Outcome))
    (k : String) : List Bool :=
  (checks.filterMap fun c =>
    if status_key c.name = k then some (outcomeBool c.outcome) else none)
  ++ (customs.filterMap fun nc =>
    if nc.1 = k then some (outcomeBool nc.2) else none)

/-- The probe-suffix tuple of `ServiceInfo.base_url`, in source order. -/
def probe_suffixes : List (List Char) :=
  ["/healthz".data, "/health".data, "/metrics".data, "/ping".data]

/-- Suffix stripping as the specification words it: try the suffixes in the
fixed priority order, the first that matches wins (not the longest), and
strip exactly that one. -/
def stripFirstMatch (url : List Char) : List Char :=
  match probe_suffixes.find? (fun suf => suf.isSuffixOf url) with
  | some suf => url.take (url.length - suf.length)
  | none => url

/-- Removal of a single trailing slash, as the specification words it
(`then strip a single trailing slash`). -/
def dropOneTrailingSlash (url : List Char) : List Char :=
  if url.getLast? = some '/' then url.dropLast else url

/-- `base_url` as claimed: first-match suffix strip, then removal of a
single trailing slash. -/
def base_url_claimed (health_check_url : String) : String :=
  (dropOneTrailingSlash (stripFirstMatch health_check_url.data)).asString

/-- `base_url` as the code computes it, phrased with the spec's first-match
search but Python's `rstrip("/")` (all trailing slashes). -/
def base_url_spec (health_check_url : String) : String :=
  (rstripSlash (stripFirstMatch health_check_url.data)).asString

/-- Whether a URL ends with one of the four probe suffixes. -/
def ends_with_probe_suffix (url : String) : Bool :=
  probe_suffixes.any (fun suf => suf.isSuffixOf url.data)

/-- Replay a list of dict writes `results[k] = v` onto an entry list. -/
def applyWrites (e : List (String × Bool)) (ws : List (String × Bool)) :
    List (String × Bool) :=
  ws.foldl (fun e w => insertResult e w.1 w.2) e

/-- The dict writes one `check_all` run performs, in execution order. -/
def allWrites (checks : List RegisteredCheck) (customs : List (String × Outcome)) :
    List (String × Bool) :=
  checks.map (fun c => (status_key c.name, outcomeBool c.outcome))
    ++ customs.map (fun nc => (nc.1, outcomeBool nc.2))

/-- The value the walrus test of `_get_env_url` accepts from one candidate
variable: the set value if non-empty, otherwise nothing. -/
def env_value (env : String → Option String) (p : String) : Option String :=
  match env p with
  | some url => if url = "" then none else some url
  | none => none

theorem retryAux_calls_le (o : Nat → Bool) (d : ℚ) :
    ∀ n a, (retryAux o d a n).calls ≤ n
  | 0, a => by simp [retryAux]
  | 1, a => by by_cases h : o a <;> simp [retryAux, h]
  | (n + 2), a => by
      by_cases h : o a
      · simp [retryAux, h]
      · have ih := retryAux_calls_le o d (n + 1) (a + 1)
        simp [retryAux, h]
        omega

theorem retryAux_all_fail (o : Nat → Bool) (d : ℚ) :
    ∀ n a, (∀ i, i < n → o (a + i) = false) →
      retryAux o d a n =
        ⟨false, n, (List.range (n - 1)).map fun i => d * 2 ^ (a + i)⟩
  | 0, a, h => by simp [retryAux]
  | 1, a, h => by
      have h0 : o a = false := by simpa using h 0 (by omega)
      simp [retryAux, h0]
  | (n + 2), a, h => by
      have h0 : o a = false := by simpa using h 0 (by omega)
      have ih := retryAux_all_fail o d (n + 1) (a + 1) (fun i hi => by
        have := h (i + 1) (by omega)
        simpa [Nat.add_assoc, Nat.add_comm 1 i] using this)
      have harr : ∀ i : Nat, a + 1 + i = a + (i + 1) := fun i => by omega
      simp [retryAux, h0, ih]
      rw [List.range_succ_eq_map, List.map_cons, List.map_map]
      simp [Function.comp_def, harr]

theorem retryAux_first_success (o : Nat → Bool) (d : ℚ) :
    ∀ n a j, j < n → o (a + j) = true → (∀ i, i < j → o (a + i) = false) →
      retryAux o d a n =
        ⟨true, j + 1, (List.range j).map fun i => d * 2 ^ (a + i)⟩
  | 0, a, j, hj, _, _ => absurd hj (by omega)
  | 1, a, j, hj, hsucc, hfail => by
      have hj0 : j = 0 := by omega
      subst hj0
      have h0 : o a = true := by simpa using hsucc
      simp [retryAux, h0]
  | (n + 2), a, j, hj, hsucc, hfail => by
      match j with
      | 0 =>
          have h0 : o a = true := by simpa using hsucc
          simp [retryAux, h0]
      | k + 1 =>
          have h0 : o a = false := by simpa using hfail 0 (by omega)
          have ih := retryAux_first_success o d (n + 1) (a + 1) k (by omega)
            (by simpa [Nat.add_assoc, Nat.add_comm 1 k] using hsucc)
            (fun i hi => by
              have := hfail (i + 1) (by omega)
              simpa [Nat.add_assoc, Nat.add_comm 1 i] using this)
          have harr : ∀ i : Nat, a + 1 + i = a + (i + 1) := fun i => by omega
          simp [retryAux, h0, ih]
          rw [List.range_succ_eq_map, List.map_cons, List.map_map]
          simp [Function.comp_def, harr]

theorem rstripSlash_eq_rdropWhile (l : List Char) :
    rstripSlash l = List.rdropWhile (fun c => c == '/') l := rfl

theorem stripProbe_eq_firstMatch (url : List Char) :
    stripProbe url = stripFirstMatch url := by
  have l1 : ("/healthz".data).length = 8 := by decide
  have l2 : ("/health".data).length = 7 := by decide
  have l3 : ("/metrics".data).length = 8 := by decide
  have l4 : ("/ping".data).length = 5 := by decide
  by_cases h1 : "/healthz".data.isSuffixOf url <;>
  by_cases h2 : "/health".data.isSuffixOf url <;>
  by_cases h3 : "/metrics".data.isSuffixOf url <;>
  by_cases h4 : "/ping".data.isSuffixOf url <;>
  simp [stripProbe, stripFirstMatch, probe_suffixes, List.find?, h1, h2, h3, h4,
    l1, l2, l3, l4]

theorem base_url_of_idem (u : String)
    (h : ends_with_probe_suffix (base_url_of u) = false) :
    base_url_of (base_url_of u) = base_url_of u := by
  have hdata : (base_url_of u).data = rstripSlash (stripProbe u.data) := rfl
  simp [ends_with_probe_suffix, probe_suffixes] at h
  obtain ⟨h1, h2, h3, h4⟩ := h
  have hstrip : stripProbe ((base_url_of u).data) = (base_url_of u).data := by
    simp [stripProbe, h1, h2, h3, h4]
  show (rstripSlash (stripProbe ((base_url_of u).data))).asString = base_url_of u
  rw [hstrip, hdata]
  show (List.rdropWhile (fun c => c == '/')
      (List.rdropWhile (fun c => c == '/') (stripProbe u.data))).asString = _
  rw [List.rdropWhile_idempotent]
  rfl

theorem stepDep_entries (s : AggState) (c : RegisteredCheck) :
    (stepDep s c).entries =
      insertResult s.entries (status_key c.name) (outcomeBool c.outcome) := by
  by_cases hb : outcomeBool c.outcome <;> by_cases hr : c.required <;>
    simp [stepDep, hb, hr]

theorem stepDep_allHealthy (s : AggState) (c : RegisteredCheck) :
    (stepDep s c).allHealthy =
      (s.allHealthy && !(c.required && !outcomeBool c.outcome)) := by
  by_cases hb : outcomeBool c.outcome <;> by_cases hr : c.required <;>
    simp [stepDep, hb, hr]

theorem stepDep_someDegraded (s : AggState) (c : RegisteredCheck) :
    (stepDep s c).someDegraded =
      (s.someDegraded || (!c.required && !outcomeBool c.outcome)) := by
  by_cases hb : outcomeBool c.outcome <;> by_cases hr : c.required <;>
    simp [stepDep, hb, hr]

theorem stepCustom_entries (s : AggState) (nc : String × Outcome) :
    (stepCustom s nc).entries = insertResult s.entries nc.1 (outcomeBool nc.2) := by
  by_cases hb : outcomeBool nc.2 <;> simp [stepCustom, hb]

theorem stepCustom_allHealthy (s : AggState) (nc : String × Outcome) :
    (stepCustom s nc).allHealthy = (s.allHealthy && outcomeBool nc.2) := by
  by_cases hb : outcomeBool nc.2 <;> simp [stepCustom, hb]

theorem stepCustom_someDegraded (s : AggState) (nc : String × Outcome) :
    (stepCustom s nc).someDegraded = s.someDegraded := by
  by_cases hb : outcomeBool nc.2 <;> simp [stepCustom, hb]

theorem foldl_stepDep_allHealthy (cs : List RegisteredCheck) :
    ∀ s : AggState, (cs.foldl stepDep s).allHealthy =
      (s.allHealthy && !(cs.any fun c => c.required && !outcomeBool c.outcome)) := by
  induction cs with
  | nil => intro s; simp
  | cons c cs ih =>
      intro s
      simp only [List.foldl_cons, ih, stepDep_allHealthy, List.any_cons,
        Bool.not_or, Bool.and_assoc]

theorem foldl_stepDep_someDegraded (cs : List RegisteredCheck) :
    ∀ s : AggState, (cs.foldl stepDep s).someDegraded =
      (s.someDegraded || cs.any fun c => !c.required && !outcomeBool c.outcome) := by
  induction cs with
  | nil => intro s; simp
  | cons c cs ih =>
      intro s
      simp only [List.foldl_cons, ih, stepDep_someDegraded, List.any_cons,
        Bool.or_assoc]

theorem foldl_stepCustom_allHealthy (ncs : List (String × Outcome)) :
    ∀ s : AggState, (ncs.foldl stepCustom s).allHealthy =
      (s.allHealthy && !(ncs.any fun nc => !outcomeBool nc.2)) := by
  induction ncs with
  | nil => intro s; simp
  | cons nc ncs ih =>
      intro s
      simp only [List.foldl_cons, ih, stepCustom_allHealthy, List.any_cons,
        Bool.not_or, Bool.and_assoc, Bool.not_not]

theorem foldl_stepCustom_someDegraded (ncs : List (String × Outcome)) :
    ∀ s : AggState, (ncs.foldl stepCustom s).someDegraded = s.someDegraded := by
  induction ncs with
  | nil => intro s; simp
  | cons nc ncs ih => intro s; simp only [List.foldl_cons, ih, stepCustom_someDegraded]

theorem foldl_stepDep_entries (cs : List RegisteredCheck) :
    ∀ s : AggState, (cs.foldl stepDep s).entries =
      applyWrites s.entries (cs.map fun c => (status_key c.name, outcomeBool c.outcome)) := by
  induction cs with
  | nil => intro s; simp [applyWrites]
  | cons c cs ih =>
      intro s
      simp only [List.foldl_cons, ih, applyWrites, List.map_cons]
      rw [stepDep_entries]

theorem foldl_stepCustom_entries (ncs : List (String × Outcome)) :
    ∀ s : AggState, (ncs.foldl stepCustom s).entries =
      applyWrites s.entries (ncs.map fun nc => (nc.1, outcomeBool nc.2)) := by
  induction ncs with
  | nil => intro s; simp [applyWrites]
  | cons nc ncs ih =>
      intro s
      simp only [List.foldl_cons, ih, applyWrites, List.map_cons]
      rw [stepCustom_entries]

theorem check_all_entries_eq (checks : List RegisteredCheck)
    (customs : List (String × Outcome)) :
    (check_all checks customs).entries = applyWrites [] (allWrites checks customs) := by
  show (customs.foldl stepCustom (checks.foldl stepDep ⟨[], true, false⟩)).entries = _
  rw [foldl_stepCustom_entries, foldl_stepDep_entries]
  simp [applyWrites, allWrites, List.foldl_append]

theorem lookup_map_update_ne (k' : String) (v : Bool) (k : String) (hk : k ≠ k') :
    ∀ e : List (String × Bool),
      lookupEntry (e.map (fun p => if p.1 == k' then (k', v) else p)) k = lookupEntry e k
  | [] => rfl
  | p :: e => by
      have ih := lookup_map_update_ne k' v k hk e
      simp only [beq_iff_eq] at ih ⊢
      by_cases hp : p.1 = k'
      · have hne : k' ≠ k := Ne.symm hk
        simp [lookupEntry, hp, hne, ih]
      · by_cases hpk : p.1 = k
        · simp [lookupEntry, hp, hpk, hk]
        · simp [lookupEntry, hp, hpk, ih]

theorem lookup_map_update_eq (k' : String) (v : Bool) :
    ∀ e : List (String × Bool), (∃ q ∈ e, q.1 = k') →
      lookupEntry (e.map (fun p => if p.1 == k' then (k', v) else p)) k' = some v
  | [], h => by simp at h
  | p :: e, h => by
      by_cases hp : p.1 = k'
      · simp [lookupEntry, hp]
      · have htail : ∃ q ∈ e, q.1 = k' := by
          rcases h with ⟨q, hq, hqk⟩
          rcases List.mem_cons.mp hq with rfl | hq'
          · exact absurd hqk hp
          · exact ⟨q, hq', hqk⟩
        have ih := lookup_map_update_eq k' v e htail
        simp only [beq_iff_eq] at ih ⊢
        simp [lookupEntry, hp, ih]

theorem lookup_append (e₂ : List (String × Bool)) (k : String) :
    ∀ e₁ : List (String × Bool),
      lookupEntry (e₁ ++ e₂) k =
        (match lookupEntry e₁ k with
          | some v => some v
          | none => lookupEntry e₂ k)
  | [] => rfl
  | p :: e₁ => by
      by_cases hpk : p.1 = k
      · simp [lookupEntry, hpk]
      · simp only [List.cons_append, lookupEntry, if_neg hpk]
        exact lookup_append e₂ k e₁

theorem lookup_eq_none_of_not_any (k : String) :
    ∀ e : List (String × Bool), e.any (fun p => p.1 == k) = false →
      lookupEntry e k = none
  | [], _ => rfl
  | p :: e, h => by
      simp only [List.any_cons, Bool.or_eq_false_iff, beq_eq_false_iff_ne] at h
      simp only [lookupEntry, if_neg h.1]
      exact lookup_eq_none_of_not_any k e (by simpa using h.2)

theorem lookupEntry_insertResult (e : List (String × Bool)) (k' : String) (v : Bool)
    (k : String) :
    lookupEntry (insertResult e k' v) k = if k = k' then some v else lookupEntry e k := by
  by_cases hany : e.any (fun p => p.1 == k')
  · simp only [insertResult, if_pos hany]
    by_cases hk : k = k'
    · subst hk
      rw [if_pos rfl]
      refine lookup_map_update_eq k v e ?_
      simpa [List.any_eq_true, beq_iff_eq] using hany
    · rw [if_neg hk]
      exact lookup_map_update_ne k' v k hk e
  · simp only [insertResult, if_neg hany]
    rw [lookup_append]
    by_cases hk : k = k'
    · subst hk
      rw [lookup_eq_none_of_not_any k e (Bool.not_eq_true _ |>.mp hany)]
      simp [lookupEntry]
    · cases hcase : lookupEntry e k with
      | none => simp [hcase, lookupEntry, Ne.symm hk, hk]
      | some w => simp [hcase, hk]

theorem getLast?_cons_or (a : Bool) (t : List Bool) (x : Option Bool) :
    (t.getLast?).or (some a) = ((a :: t).getLast?).or x := by
  cases t with
  | nil => simp
  | cons b t =>
      rw [List.getLast?_cons_cons]
      cases hlast : (b :: t).getLast? with
      | none => exact absurd hlast (by simp)
      | some z => simp [Option.or]

theorem lookup_applyWrites (k : String) :
    ∀ (ws : List (String × Bool)) (e : List (String × Bool)),
      lookupEntry (applyWrites e ws) k =
        ((ws.filterMap fun w => if w.1 = k then some w.2 else none).getLast?).or
          (lookupEntry e k)
  | [], e => by simp [applyWrites]
  | w :: ws, e => by
      have ih := lookup_applyWrites k ws (insertResult e w.1 w.2)
      simp only [applyWrites, List.foldl_cons] at ih ⊢
      rw [ih, lookupEntry_insertResult]
      by_cases hw : w.1 = k
      · rw [if_pos (Eq.symm hw),
          @List.filterMap_cons_some _ _ (fun w => if w.1 = k then some w.2 else none)
            w ws w.2 (by simp [hw])]
        exact getLast?_cons_or w.2 _ _
      · rw [if_neg (fun h => hw (Eq.symm h)),
          @List.filterMap_cons_none _ _ (fun w => if w.1 = k then some w.2 else none)
            w ws (by simp [hw])]

theorem writesFor_eq_filterMap_allWrites (checks : List RegisteredCheck)
    (customs : List (String × Outcome)) (k : String) :
    (allWrites checks customs).filterMap
        (fun w => if w.1 = k then some w.2 else none) =
      writesFor checks customs k := by
  simp [allWrites, writesFor, List.filterMap_append, List.filterMap_map,
    Function.comp_def]

theorem lookup_check_all (checks : List RegisteredCheck)
    (customs : List (String × Outcome)) (k : String) :
    lookupEntry (check_all checks customs).entries k =
      (writesFor checks customs k).getLast? := by
  rw [check_all_entries_eq, lookup_applyWrites, writesFor_eq_filterMap_allWrites]
  simp [lookupEntry]

theorem filterMap_key_singleton {α β : Type} (f : α → String) (g : α → β)
    (l : List α) :
    (l.map f).Nodup → ∀ a ∈ l,
      (l.filterMap fun x => if f x = f a then some (g x) else none) = [g a] := by
  induction l with
  | nil => intro _ a ha; exact absurd ha (List.not_mem_nil a)
  | cons x l ih =>
      intro hnd a ha
      rw [List.map_cons, List.nodup_cons] at hnd
      rcases List.mem_cons.mp ha with h | ha'
      · subst h
        have hcons := @List.filterMap_cons_some _ _
          (fun y => if f y = f a then some (g y) else none) a l (g a) (by simp)
        rw [hcons]
        have htail : (l.filterMap fun y => if f y = f a then some (g y) else none) = [] := by
          rw [List.filterMap_eq_nil_iff]
          intro y hy
          have hne : f y ≠ f a := fun h => hnd.1 (h ▸ List.mem_map_of_mem f hy)
          simp [hne]
        rw [htail]
      · have hne : f x ≠ f a := fun h => hnd.1 (h ▸ List.mem_map_of_mem f ha')
        have hcons := @List.filterMap_cons_none _ _
          (fun y => if f y = f a then some (g y) else none) x l (by simp [hne])
        rw [hcons]
        exact ih hnd.2 a ha'

theorem filterMap_key_nil {α β : Type} (f : α → String) (g : α → β) (l : List α)
    (k : String) (hk : k ∉ l.map f) :
    (l.filterMap fun x => if f x = k then some (g x) else none) = [] := by
  rw [List.filterMap_eq_nil_iff]
  intro x hx
  have : f x ≠ k := fun h => hk (h ▸ List.mem_map_of_mem f hx)
  simp [this]

theorem writesFor_dep_singleton (checks : List RegisteredCheck)
    (customs : List (String × Outcome))
    (hnd : (statusKeys checks customs).Nodup)
    (c : RegisteredCheck) (hc : c ∈ checks) :
    writesFor checks customs (status_key c.name) = [outcomeBool c.outcome] := by
  rw [statusKeys, List.nodup_append] at hnd
  have h1 := filterMap_key_singleton (fun c => status_key c.name)
    (fun c => outcomeBool c.outcome) checks hnd.1 c hc
  have h2 := filterMap_key_nil (fun nc : String × Outcome => nc.1)
    (fun nc => outcomeBool nc.2) customs (status_key c.name)
    (fun hmem => hnd.2.2 (List.mem_map_of_mem _ hc) hmem)
  rw [writesFor, h1, h2, List.append_nil]

theorem writesFor_custom_singleton (checks : List RegisteredCheck)
    (customs : List (String × Outcome))
    (hnd : (statusKeys checks customs).Nodup)
    (nc : String × Outcome) (hnc : nc ∈ customs) :
    writesFor checks customs nc.1 = [outcomeBool nc.2] := by
  rw [statusKeys, List.nodup_append] at hnd
  have h1 := filterMap_key_nil (fun c : RegisteredCheck => status_key c.name)
    (fun c => outcomeBool c.outcome) checks nc.1
    (fun hmem => hnd.2.2 hmem (List.mem_map_of_mem _ hnc))
  have h2 := filterMap_key_singleton (fun nc : String × Outcome => nc.1)
    (fun nc => outcomeBool nc.2) customs hnd.2.1 nc hnc
  rw [writesFor, h1, h2, List.nil_append]

theorem check_all_status_eq (checks : List RegisteredCheck)
    (customs : List (String × Outcome)) :
    (check_all checks customs).status =
      if (checks.any fun c => c.required && !outcomeBool c.outcome)
          || (customs.any fun nc => !outcomeBool nc.2) then
        HealthStatus.unhealthy
      else if checks.any fun c => !c.required && !outcomeBool c.outcome then
        HealthStatus.degraded
      else HealthStatus.healthy := by
  show (if !(customs.foldl stepCustom (checks.foldl stepDep ⟨[], true, false⟩)).allHealthy
      then HealthStatus.unhealthy
      else if (customs.foldl stepCustom (checks.foldl stepDep ⟨[], true, false⟩)).someDegraded
      then HealthStatus.degraded else HealthStatus.healthy) = _
  rw [foldl_stepCustom_allHealthy, foldl_stepCustom_someDegraded,
    foldl_stepDep_allHealthy, foldl_stepDep_someDegraded]
  cases hd : checks.any fun c => c.required && !outcomeBool c.outcome <;>
    cases hc : customs.any fun nc => !outcomeBool nc.2 <;>
      cases ho : checks.any fun c => !c.required && !outcomeBool c.outcome <;>
        simp [hd, hc, ho]

theorem unhealthy_of_required_failure (checks : List RegisteredCheck)
    (customs : List (String × Outcome)) (c : RegisteredCheck) (hc : c ∈ checks)
    (hreq : c.required = true) (hfail : outcomeBool c.outcome = false) :
    (check_all checks customs).status = HealthStatus.unhealthy := by
  rw [check_all_status_eq]
  have : (checks.any fun c => c.required && !outcomeBool c.outcome) = true :=
    List.any_eq_true.mpr ⟨c, hc, by rw [hreq, hfail]; rfl⟩
  rw [this]
  rfl

theorem unhealthy_of_custom_failure (checks : List RegisteredCheck)
    (customs : List (String × Outcome)) (nc : String × Outcome) (hnc : nc ∈ customs)
    (hfail : outcomeBool nc.2 = false) :
    (check_all checks customs).status = HealthStatus.unhealthy := by
  rw [check_all_status_eq]
  have : (customs.any fun nc => !outcomeBool nc.2) = true :=
    List.any_eq_true.mpr ⟨nc, hnc, by rw [hfail]; rfl⟩
  rw [this, Bool.or_true]
  rfl

theorem env_url_loop_eq (env : String → Option String) :
    ∀ ps : List String, env_url_loop env ps =
      ps.foldr (fun p acc => (env_value env p).or acc) none
  | [] => rfl
  | p :: ps => by
      rw [List.foldr_cons, ← env_url_loop_eq env ps]
      cases henv : env p with
      | none => simp [env_url_loop, env_value, henv]
      | some url =>
          by_cases hu : url = ""
          · simp [env_url_loop, env_value, henv, hu]
          · simp [env_url_loop, env_value, henv, hu]

/-- Claim C1: `check_all` derives the overall status by strict priority —
if any required dependency check is falsy (or raises), or any custom check
is falsy (or raises), the status is unhealthy; otherwise if any optional
dependency check is falsy the status is degraded; otherwise healthy.  Every
check registered via the custom path counts as required regardless of its
result key. -/
theorem check_all_status_priority (checks : List RegisteredCheck)
    (customs : List (String × Outcome)) :
    (check_all checks customs).status =
      if (checks.any fun c => c.required && !outcomeBool c.outcome)
          || (customs.any fun nc => !outcomeBool nc.2) then HealthStatus.unhealthy
      else if checks.any fun c => !c.required && !outcomeBool c.outcome then
        HealthStatus.degraded
      else HealthStatus.healthy :=
  check_all_status_eq checks customs

/-- Claim C2, counterexample: on `health_check_url = "http://x//"` the code
(`rstrip("/")`, which removes every trailing slash) returns `"http://x"`,
while the claimed transformation (remove a single trailing slash) returns
`"http://x/"`. -/
theorem base_url_counterexample :
    ServiceInfo.base_url ⟨"x", "x", "", "http://x//", none, ServiceTier.api, []⟩ = "http://x"
    ∧ base_url_claimed "http://x//" = "http://x/"
    ∧ ("http://x" : String) ≠ "http://x/" :=
  ⟨by decide, by decide, by decide⟩

/-- Claim C2 as amended: `base_url` strips exactly one of the known probe
suffixes, tried in the fixed order with first match (not longest match)
winning, and then removes all trailing slashes (not just one). -/
theorem base_url_first_match_all_slashes (info : ServiceInfo) :
    info.base_url = base_url_spec info.health_check_url := by
  show base_url_of info.health_check_url = _
  rw [base_url_of, base_url_spec, stripProbe_eq_firstMatch]

/-- Claim C3: the environment-override stage probes
`UPPER_SNAKE(slug)+"_URL"`, then `UPPER_NODASH(slug)+"_URL"`, then
`UPPER(slug)+"_URL"` (dashes preserved), in exactly that order, and the
first candidate with a non-empty value wins; with `HIRAG_V2_URL` set to
`http://x:9`, resolving `hirag-v2` yields `base_url = "http://x:9"` from
the env stage (name tag `(from env)`), consulting no later stage. -/
theorem env_override_order (env : String → Option String) (slug : String) :
    _get_env_url env slug =
      ((env_value env (replaceDashUnderscore (pyUpper slug) ++ "_URL")).or
        ((env_value env (removeDash (pyUpper slug) ++ "_URL")).or
          (env_value env (pyUpper slug ++ "_URL"))))
    ∧ (get_service_info
        (fun k => if k = "HIRAG_V2_URL" then some "http://x:9" else none)
        "hirag-v2" 80).base_url = "http://x:9"
    ∧ (get_service_info
        (fun k => if k = "HIRAG_V2_URL" then some "http://x:9" else none)
        "hirag-v2" 80).name = "hirag-v2 (from env)" := by
  refine ⟨?_, by decide, by decide⟩
  rw [_get_env_url, env_url_loop_eq]
  simp [env_var_patterns]

/-- Claim C4: `get_service_info` is total (it returns a `ServiceInfo` for
every environment, slug and port — the Lean function is total by
construction), and whenever the environment override yields nothing it
synthesizes the DNS-convention fallback `http://slug:port`. -/
theorem resolve_dns_fallback (env : String → Option String) (slug : String)
    (port : Nat) (h : _get_env_url env slug = none) :
    (get_service_info env slug port).health_check_url =
        "http://" ++ slug ++ ":" ++ toString port
    ∧ (get_service_info env slug port).name = slug ++ " (fallback)" := by
  simp [get_service_info, h, _fallback_dns_url]

/-- Claim C4, witness: with an empty environment,
`resolve("foo", 8080).health_check_url = "http://foo:8080"`. -/
theorem resolve_dns_fallback_witness :
    _get_env_url (fun _ => none) "foo" = none
    ∧ (get_service_info (fun _ => none) "foo" 8080).health_check_url = "http://foo:8080" := by
  refine ⟨rfl, ?_⟩
  have h := resolve_dns_fallback (fun _ => none) "foo" 8080 rfl
  rw [h.1]
  decide

/-- Claim C5: evaluation of the code at the failing input.  With no
environment override for `foo`, `get_service_info` returns the synthesized
DNS fallback outright — the function body has no catalog-lookup or
bus-cache stage at all, so a catalog hit for `foo` could never be
returned, contradicting the claim (and the module docstring, which
advertises a Supabase-catalog stage and a NATS-announcement stage between
the environment override and the DNS fallback). -/
theorem get_service_info_no_catalog_stage :
    get_service_info (fun _ => none) "foo" 8080 =
      { slug := "foo", name := "foo (fallback)"
      , description := "Service resolved via Docker DNS fallback"
      , health_check_url := "http://foo:8080", default_port := some 8080
      , tier := ServiceTier.api, metadata := [] } := rfl

/-- Claim C6: exceptions are caught per check — when the registered checks
have distinct canonical keys, every dependency check and every custom
check reports exactly its own outcome in the final report (`exn` is
recorded as `false`), no matter which other probes raised; and a custom
check that raises forces the overall status to unhealthy. -/
theorem check_all_exception_isolation (checks : List RegisteredCheck)
    (customs : List (String × Outcome))
    (hnd : (statusKeys checks customs).Nodup) :
    (∀ c ∈ checks,
        lookupEntry (check_all checks customs).entries (status_key c.name) =
          some (outcomeBool c.outcome))
    ∧ (∀ nc ∈ customs,
        lookupEntry (check_all checks customs).entries nc.1 = some (outcomeBool nc.2))
    ∧ (∀ nc ∈ customs, nc.2 = Outcome.exn →
        (check_all checks customs).status = HealthStatus.unhealthy) := by
  refine ⟨?_, ?_, ?_⟩
  · intro c hc
    rw [lookup_check_all, writesFor_dep_singleton checks customs hnd c hc]
    rfl
  · intro nc hnc
    rw [lookup_check_all, writesFor_custom_singleton checks customs hnd nc hnc]
    rfl
  · intro nc hnc hexn
    exact unhealthy_of_custom_failure checks customs nc hnc (by rw [hexn]; rfl)

/-- Claim C6, witness: a raising required database check is recorded as
`false` under `database_connected` while the other checks still report,
and a raising custom check forces unhealthy. -/
theorem check_all_exception_isolation_witness :
    lookupEntry (check_all
        [⟨"database", true, Outcome.exn⟩, ⟨"nats", false, Outcome.ok true⟩]
        [("memory_ok", Outcome.exn)]).entries "database_connected" = some false
    ∧ (check_all
        [⟨"database", true, Outcome.exn⟩, ⟨"nats", false, Outcome.ok true⟩]
        [("memory_ok", Outcome.exn)]).status = HealthStatus.unhealthy := by
  have h := check_all_exception_isolation
    [⟨"database", true, Outcome.exn⟩, ⟨"nats", false, Outcome.ok true⟩]
    [("memory_ok", Outcome.exn)] (by decide)
  constructor
  · have h1 := h.1 ⟨"database", true, Outcome.exn⟩ (by simp)
    have hk : status_key "database" = "database_connected" := by decide
    rw [hk] at h1
    exact h1
  · exact h.2.2 ("memory_ok", Outcome.exn) (by simp) rfl

/-- Claim C7: `announce_with_retry` calls `announce` at most `max_retries`
times; if every attempt fails it performs exactly `max_retries` calls with
sleeps `delay * 2^attempt` for the 0-based attempts before the last one and
returns false; and it stops at the first success, having slept only between
the preceding failed attempts. -/
theorem announce_with_retry_spec :
    (∀ (o : Nat → Bool) (maxr : Nat) (d : ℚ),
        (announce_with_retry o maxr d).calls ≤ maxr)
    ∧ (∀ (o : Nat → Bool) (maxr : Nat) (d : ℚ),
        (∀ i, i < maxr → o i = false) →
          announce_with_retry o maxr d =
            ⟨false, maxr, (List.range (maxr - 1)).map fun i => d * 2 ^ i⟩)
    ∧ (∀ (o : Nat → Bool) (maxr : Nat) (d : ℚ) (j : Nat),
        j < maxr → o j = true → (∀ i, i < j → o i = false) →
          announce_with_retry o maxr d =
            ⟨true, j + 1, (List.range j).map fun i => d * 2 ^ i⟩) := by
  refine ⟨fun o maxr d => retryAux_calls_le o d maxr 0, ?_, ?_⟩
  · intro o maxr d hfail
    have h := retryAux_all_fail o d maxr 0 (fun i hi => by simpa using hfail i hi)
    simpa [announce_with_retry] using h
  · intro o maxr d j hj hsucc hfail
    have h := retryAux_first_success o d maxr 0 j hj (by simpa using hsucc)
      (fun i hi => by simpa using hfail i hi)
    simpa [announce_with_retry] using h

/-- Claim C7, witness: against an always-failing transport with
`max_retries = 3` and `delay = 1.0`, exactly 3 attempts are made with
sleeps of 1s and 2s between them, and the call returns false. -/
theorem announce_with_retry_spec_witness :
    announce_with_retry (fun _ => false) 3 1 = ⟨false, 3, [1, 2]⟩ := by
  have h := announce_with_retry_spec.2.1 (fun _ => false) 3 1 (fun i _ => rfl)
  rw [h]
  norm_num [List.range_succ]

/-- Claim C8, counterexample: the `base_url` transformation is not
idempotent.  On `"http://x/health/"` one application gives
`"http://x/health"` (the trailing slash hid the suffix, then `rstrip`
removed it), and a second application strips the now-exposed `/health`,
giving `"http://x"`. -/
theorem base_url_not_idempotent :
    base_url_of (base_url_of "http://x/health/") ≠ base_url_of "http://x/health/" := by
  decide

/-- Claim C8 as amended: the `base_url` transformation is idempotent on
every URL whose once-transformed value does not end with one of the probe
suffixes; in general a second application can strip a further suffix. -/
theorem base_url_idempotent_no_probe_suffix (u : String)
    (h : ends_with_probe_suffix (base_url_of u) = false) :
    base_url_of (base_url_of u) = base_url_of u :=
  base_url_of_idem u h

/-- Claim C8, witness: on the ordinary health URL `"http://x:9/healthz"`
the side condition holds and the transformation is idempotent. -/
theorem base_url_idempotent_no_probe_suffix_witness :
    ends_with_probe_suffix (base_url_of "http://x:9/healthz") = false
    ∧ base_url_of (base_url_of "http://x:9/healthz") = base_url_of "http://x:9/healthz" :=
  ⟨by decide, base_url_idempotent_no_probe_suffix "http://x:9/healthz" (by decide)⟩

/-- Claim C9: the announcement wire round-trip —
`from_json (to_json a) = a` for every announcement and every value of the
timestamp default (which is never consulted, `to_json` always writes the
key). -/
theorem from_json_to_json_roundtrip (now : String) (a : ServiceAnnouncement) :
    ServiceAnnouncement.from_json now a.to_json = some a := by
  cases a with
  | mk slug name url hc tier port ts md => cases tier <;> rfl

/-- Claim C10: when several checks canonicalize to the same status key the
report holds the last-run check's boolean under that key (the lookup of any
key equals the last write performed for it), yet the status derivation still
accounts for every check individually: a failing required check forces
unhealthy even if a later same-key check succeeds and overwrites the
reported value. -/
theorem check_all_shadowing (checks : List RegisteredCheck)
    (customs : List (String × Outcome)) :
    (∀ k, lookupEntry (check_all checks customs).entries k =
        (writesFor checks customs k).getLast?)
    ∧ (∀ c ∈ checks, c.required = true → outcomeBool c.outcome = false →
        (check_all checks customs).status = HealthStatus.unhealthy) := by
  refine ⟨fun k => lookup_check_all checks customs k, ?_⟩
  intro c hc hreq hfail
  exact unhealthy_of_required_failure checks customs c hc hreq hfail

/-- Claim C10, witness: two HTTP checks registered without an explicit name
share the key `service_connected`; the failing first one is shadowed in the
report by the succeeding second one, yet the status is unhealthy. -/
theorem check_all_shadowing_witness :
    status_key "service" = "service_connected"
    ∧ lookupEntry (check_all
        [httpCheck (Outcome.ok false), httpCheck (Outcome.ok true)] []).entries
        "service_connected" = some true
    ∧ (check_all
        [httpCheck (Outcome.ok false), httpCheck (Outcome.ok true)] []).status =
        HealthStatus.unhealthy := by
  have h := check_all_shadowing
    [httpCheck (Outcome.ok false), httpCheck (Outcome.ok true)] []
  refine ⟨by decide, ?_, ?_⟩
  · rw [h.1 "service_connected"]
    decide
  · exact h.2 (httpCheck (Outcome.ok false)) (by simp) rfl rfl
